import Mathlib

set_option autoImplicit false
set_option linter.unusedVariables false

/-!
# Verification of `mimesis/utils.py`

Shallow embedding of the functions in `src/mimesis/utils.py` (locale data
resolver of the `mimesis` package) and proofs of the specified properties.

Python JSON documents (the result of `json.load`) are modelled by the
inductive type `Doc`; Python `dict`s are association lists in insertion
order, matching CPython's order-preserving dictionaries: item assignment
keeps the position of an existing key and appends a fresh key at the end.

Each `json.load` call produces freshly allocated objects, so distinct calls
to `get_data` inside `pull` never share structure with one another or with
any cached document.  Consequently the in-place mutation performed by
`update_dict` is only ever visible to the document being built for the
current `pull` invocation, and a value-semantics embedding (functions
returning updated values) is observationally faithful.
-/

namespace Mimesis

deriving instance DecidableEq for Except

/-- A JSON document as produced by Python's `json.load`: null, booleans,
numbers, strings, arrays, and objects (order-preserving string-keyed
dictionaries, modelled as association lists). -/
inductive Doc where
  | null
  | bool (b : Bool)
  | num (n : Int)
  | str (s : String)
  | arr (elems : List Doc)
  | obj (fields : List (String × Doc))

/-- `isinstance(value, collections.Mapping)` for a JSON value: only `dict`s
(objects) are mappings. -/
def Doc.isObj : Doc → Bool
  | .obj _ => true
  | _ => false

/-- Python `d.get(key, default)` on an order-preserving dict: the value at
the first (unique, for a real dict) occurrence of `key`. -/
def getVal (fields : List (String × Doc)) (key : String) : Option Doc :=
  match fields with
  | [] => none
  | (k, v) :: rest => if k = key then some v else getVal rest key

/-- Python `d[key] = v` on an order-preserving dict: replace the value at an
existing key in place, otherwise append the new binding at the end. -/
def setVal (fields : List (String × Doc)) (key : String) (v : Doc) :
    List (String × Doc) :=
  match fields with
  | [] => [(key, v)]
  | (k, w) :: rest =>
      if k = key then (k, v) :: rest else (k, w) :: setVal rest key v

/-- Python runtime errors that the embedded functions can raise. -/
inductive PyError where
  /-- `UnsupportedLocale` from `mimesis.exceptions`. -/
  | unsupportedLocale (msg : String)
  /-- `UnexpectedGender` from `mimesis.exceptions`. -/
  | unexpectedGender (msg : String)
  /-- `IOError`/`json` parse error raised by `get_data` when
  `<data-root>/<locale>/<file>` is missing or malformed. -/
  | ioError (locale : String) (file : String)
  /-- `TypeError`: item assignment `x[key] = v` on a non-dict `x`. -/
  | typeError
  /-- `AttributeError`: `x.get(...)` / `x.items()` on a non-dict `x`. -/
  | attributeError
deriving DecidableEq, Repr

/-- `update_dict(initial, other)` from `src/mimesis/utils.py` lines 53-68:

    for key, value in other.items():
        if isinstance(value, collections.Mapping):
            r = update_dict(initial.get(key, {}), value)
            initial[key] = r
        else:
            initial[key] = other[key]
    return initial

`other` is iterated in insertion order (the second argument is its item
list).  When `initial` is not a dict, the first loop iteration raises:
`AttributeError` from `initial.get` if the override value is a mapping,
`TypeError` from `initial[key] = ...` otherwise; with an empty `other` the
loop body never runs and `initial` is returned unchanged. -/
def update_dict : Doc → List (String × Doc) → Except PyError Doc
  | initial, [] => .ok initial
  | initial, (key, value) :: rest =>
    match value with
    | .obj vfields =>
      match initial with
      | .obj ifields =>
        match update_dict ((getVal ifields key).getD (.obj [])) vfields with
        | .ok r => update_dict (.obj (setVal ifields key r)) rest
        | .error e => .error e
      | _ => .error .attributeError
    | _ =>
      match initial with
      | .obj ifields => update_dict (.obj (setVal ifields key value)) rest
      | _ => .error .typeError
termination_by initial other => sizeOf other
decreasing_by all_goals simp_wf <;> omega

/-! ## Luhn checksum (`luhn_checksum`, lines 38-50) -/

/-- Python `int(s)` on a single character: its digit value, failing
(`ValueError`) on a non-digit. -/
def pyInt (c : Char) : Option Nat :=
  if c.isDigit then some (c.toNat - 48) else none

/-- `int(s)` applied to every character of the input, in order; the whole
conversion fails (`ValueError` escapes the loop) as soon as one character
is not a digit. -/
def pyIntList : List Char → Option (List Nat)
  | [] => some []
  | c :: rest =>
    match pyInt c, pyIntList rest with
    | some d, some ds => some (d :: ds)
    | _, _ => none

/-- One iteration of the loop in `luhn_checksum` (lines 46-48):
`sx = int(s)`, doubled at even positions, minus 9 when above 9. -/
def luhnTerm (i : Nat) (d : Nat) : Nat :=
  let sx := if i % 2 = 0 then d * 2 else d
  if sx > 9 then sx - 9 else sx

/-- The accumulation `for i, s in enumerate(...): check += sx`, with `i`
starting at the given index; the argument list is already reversed. -/
def luhnSum : Nat → List Nat → Nat
  | _, [] => 0
  | i, d :: rest => luhnTerm i d + luhnSum (i + 1) rest

/-- `luhn_checksum(num)` from `src/mimesis/utils.py` lines 38-50:

    check = 0
    for i, s in enumerate(reversed([x for x in num])):
        sx = int(s)
        sx = sx * 2 if i % 2 == 0 else sx
        sx = sx - 9 if sx > 9 else sx
        check += sx
    return str(check * 9 % 10)

Returns `none` when some character is not a digit (`int(s)` raises
`ValueError`). -/
def luhn_checksum (num : String) : Option String :=
  match pyIntList num.data with
  | none => none
  | some digits => some (toString (luhnSum 0 digits.reverse * 9 % 10))

/-- The per-digit step exactly as the spec words it: "double every digit at
an even (0-based) position in this reversed order; if a doubled digit
exceeds 9, subtract 9". -/
def luhnSpecTerm (i : Nat) (d : Nat) : Nat :=
  if i % 2 = 0 then (if d * 2 > 9 then d * 2 - 9 else d * 2) else d

/-- Sum of the spec-worded per-digit steps, indexed from `i`. -/
def luhnSpecSum : Nat → List Nat → Nat
  | _, [] => 0
  | i, d :: rest => luhnSpecTerm i d + luhnSpecSum (i + 1) rest

/-- The checksum as described by the spec, on the digit values of the input
in original (most-significant-first) order: iterate least-significant
first, apply the doubling rule, sum, and render `(sum * 9) mod 10` as a
decimal digit string. -/
def checksum_spec (digits : List Nat) : String :=
  toString (luhnSpecSum 0 digits.reverse * 9 % 10)

/-- Python `str.lower()` on the embedded strings, character by character.
Locale codes and gender tokens are ASCII, where `Char.toLower` agrees with
Python's `str.lower`. -/
def pyLower (s : String) : String :=
  String.mk (s.data.map Char.toLower)

/-! ## Locale registry (`locale_info`, lines 22-35) -/

/-- Metadata stored in the Supported Locales table; per the spec it holds at
least the display name (`supported[locale]['name']`). -/
structure LocaleMeta where
  name : String
deriving DecidableEq, Repr

/-- `settings.SUPPORTED_LOCALES`: a mapping from locale code to metadata. -/
abbrev LocaleTable := List (String × LocaleMeta)

/-- Modelled from the spec: `mimesis.settings.SUPPORTED_LOCALES` lives in
`mimesis/settings.py`, which is not under `src/`.  Per the spec it is a
process-wide, read-only table mapping lower-case locale codes (simple codes
such as `en` and composite codes such as `en-gb`) to metadata with at least
a display name; `xx-impossible` is not a supported code. -/
def SUPPORTED_LOCALES : LocaleTable :=
  [("en", { name := "English" }),
   ("en-gb", { name := "English United Kingdom" }),
   ("de", { name := "German" })]

/-- `locale_info(locale)` from `src/mimesis/utils.py` lines 22-35; the
module-global `settings.SUPPORTED_LOCALES` is passed explicitly as
`supported`:

    locale = locale.lower()
    supported = settings.SUPPORTED_LOCALES
    if locale not in supported:
        raise UnsupportedLocale('Locale %s is not supported' % locale)
    return supported[locale]['name']
-/
def locale_info (supported : LocaleTable) (locale : String) :
    Except PyError String :=
  let locale := pyLower locale
  match List.lookup locale supported with
  | none =>
      .error (.unsupportedLocale ("Locale " ++ locale ++ " is not supported"))
  | some meta => .ok meta.name

/-! ## String helpers shared by `pull` and `download_image` -/

/-- Python `str.split(sep)` on a character list, keeping empty segments:
`''.split(sep) == ['']`, `'-'.split('-') == ['', '']`.  `str.rsplit(sep)`
with no maxsplit produces the same list. -/
def pySplitChar (sep : Char) : List Char → List (List Char)
  | [] => [[]]
  | c :: rest =>
    match pySplitChar sep rest with
    | [] => [[]]
    | seg :: segs =>
      if c = sep then [] :: seg :: segs else (c :: seg) :: segs

/-- `s.split(sep)[0]`: the first segment. -/
def splitHead (sep : Char) (s : String) : String :=
  String.mk ((pySplitChar sep s.data).headD [])

/-- Python `c in s` for a character and a string. -/
def pyContains (s : String) (c : Char) : Bool :=
  s.data.contains c

/-- The suffix of `l` strictly after the last occurrence of `sep`, and all
of `l` when `sep` does not occur: the "final path segment" in the words of
the spec. -/
def suffixAfterLast (sep : Char) : List Char → List Char
  | [] => []
  | c :: rest =>
    if sep ∈ rest then suffixAfterLast sep rest
    else if c = sep then rest
    else c :: rest

/-! ## Merge-and-cache pipeline (`pull`, lines 71-116) -/

/-- The on-disk data layout `<data-root>/<locale>/<file>`, abstracted:
`fs locale file` is the document parsed by `get_data` (lines 93-102), or
`none` when the file is missing or unreadable or its contents malformed,
in which case `get_data` raises. -/
abbrev FS := String → String → Option Doc

/-- The `functools.lru_cache(maxsize=None)` memo table of `pull` (line 71),
keyed by the raw `(file, locale)` argument pair: the key is formed before
the lower-casing inside the body, `maxsize=None` never evicts, and a call
that raises stores nothing. -/
abbrev Cache := List ((String × String) × Doc)

/-- Outcome of one `pull` call: the returned document or raised error, the
cache state after the call, and the `(locale-dir, file)` filesystem reads
performed during the call, in order. -/
structure PullOutcome where
  result : Except PyError Doc
  cache : Cache
  reads : List (String × String)

/-- The body of `pull` (lines 93-116), executed on a cache miss:

    locale = locale.lower()
    if locale not in settings.SUPPORTED_LOCALES:
        raise UnsupportedLocale('Locale %s is not supported' % locale)
    master_locale = locale.split('-')[0]
    data = get_data(master_locale)
    if '-' in locale:
        data = update_dict(data, get_data(locale))
    return data

Each `get_data` call parses its file afresh, producing documents that share
no structure with any earlier result, so the in-place `update_dict` merge
can only affect the document being built here.  When the region document is
not a mapping, `update_dict`'s `other.items()` raises `AttributeError`.
Returns the result together with the filesystem reads performed. -/
def pull_body (fs : FS) (supported : LocaleTable) (file locale : String) :
    Except PyError Doc × List (String × String) :=
  let locale := pyLower locale
  match List.lookup locale supported with
  | none =>
      (.error (.unsupportedLocale ("Locale " ++ locale ++ " is not supported")),
       [])
  | some _ =>
    let master_locale := splitHead '-' locale
    match fs master_locale file with
    | none => (.error (.ioError master_locale file), [(master_locale, file)])
    | some data =>
      if pyContains locale '-' then
        match fs locale file with
        | none =>
            (.error (.ioError locale file),
             [(master_locale, file), (locale, file)])
        | some region =>
          match region with
          | .obj rfields =>
              (update_dict data rfields,
               [(master_locale, file), (locale, file)])
          | _ =>
              (.error .attributeError,
               [(master_locale, file), (locale, file)])
      else
        (.ok data, [(master_locale, file)])

/-- `pull(file, locale)` (lines 71-116) including its `lru_cache` layer: a
hit returns the memoized document with no filesystem access; a miss runs
`pull_body`, and the result is memoized only when the call returns
normally. -/
def pull (fs : FS) (supported : LocaleTable) (cache : Cache)
    (file locale : String) : PullOutcome :=
  match List.lookup (file, locale) cache with
  | some d => ⟨.ok d, cache, []⟩
  | none =>
    match pull_body fs supported file locale with
    | (.ok d, reads) => ⟨.ok d, ((file, locale), d) :: cache, reads⟩
    | (.error e, reads) => ⟨.error e, cache, reads⟩

/-! ## Gender normalization (`check_gender`, lines 139-166) -/

/-- The argument of `check_gender` (`types.Gender`): `None`, a small int,
or a string. -/
inductive GenderArg where
  | none
  | int (n : Nat)
  | str (s : String)
deriving DecidableEq, Repr

/-- Python `str(gender)` on the modelled argument values. -/
def pyStrGender : GenderArg → String
  | .none => "None"
  | .int n => toString n
  | .str s => s

/-- `check_gender(gender)` from `src/mimesis/utils.py` lines 139-166.  The
call `choice([f, m])` (`random.choice`) is modelled by the oracle `o`:
`true` picks `'female'`, `false` picks `'male'`.

    f, m = ('female', 'male')
    o = choice([f, m])
    options = {'0': o, '9': o, '1': m, '2': f, 'f': f, 'm': m, f: f, m: m}
    if gender is None:
        return o
    supported = sorted(options)
    gender = str(gender).lower()
    if gender not in supported:
        raise UnexpectedGender('Gender must be {}.'.format(', '.join(supported)))
    return options[gender]

`sorted(options)` sorts the eight keys lexicographically, which yields
`['0', '1', '2', '9', 'f', 'female', 'm', 'male']`; `options[gender]` is a
plain dict access, total because membership in `supported` was checked. -/
def check_gender (o : Bool) (gender : GenderArg) : Except PyError String :=
  let ochoice := if o then "female" else "male"
  let options : List (String × String) :=
    [("0", ochoice), ("9", ochoice), ("1", "male"), ("2", "female"),
     ("f", "female"), ("m", "male"), ("female", "female"), ("male", "male")]
  match gender with
  | .none => .ok ochoice
  | g =>
    let supported : List String := ["0", "1", "2", "9", "f", "female", "m", "male"]
    let gstr := pyLower (pyStrGender g)
    if supported.contains gstr then
      .ok ((List.lookup gstr options).getD "")
    else
      .error (.unexpectedGender
        ("Gender must be " ++ String.intercalate ", " supported ++ "."))

/-! ## Remote asset download (`download_image`, lines 119-136) -/

/-- The network transfer `urllib.request.urlretrieve(url, save_path +
image_name)` attempted by `download_image`, recorded rather than
performed. -/
structure UrlRetrieve where
  url : String
  filename : String
deriving DecidableEq, Repr

/-- `download_image(url, save_path, unverified_ctx)` from
`src/mimesis/utils.py` lines 119-136:

    if url is not None:
        image_name = url.rsplit('/')[-1]
        request.urlretrieve(url, save_path + image_name)
        return image_name
    return None

The result records the transfer attempted (`none` when no transfer is
attempted) and the value returned when the transfer succeeds (`none` for
Python `None`).  `url.rsplit('/')[-1]` is the last segment of the split.
The `unverified_ctx` branch only mutates the process-wide ssl default and
does not affect the result. -/
def download_image (url : Option String) (save_path : String)
    (unverified_ctx : Bool) : Option UrlRetrieve × Option String :=
  match url with
  | some u =>
    let image_name := String.mk ((pySplitChar '/' u.data).getLastD [])
    (some ⟨u, save_path ++ image_name⟩, some image_name)
  | none => (none, none)

/-! ## Lemmas about `getVal`, `setVal` and `update_dict` -/

theorem getVal_setVal_self (fields : List (String × Doc)) (key : String)
    (v : Doc) : getVal (setVal fields key v) key = some v := by
  induction fields with
  | nil => simp [setVal, getVal]
  | cons hd rest ih =>
    obtain ⟨k, w⟩ := hd
    by_cases h : k = key
    · simp [setVal, getVal, h]
    · simp [setVal, getVal, h, ih]

theorem getVal_setVal_ne (fields : List (String × Doc)) (key k' : String)
    (v : Doc) (h : k' ≠ key) :
    getVal (setVal fields key v) k' = getVal fields k' := by
  induction fields with
  | nil => simp [setVal, getVal, Ne.symm h]
  | cons hd rest ih =>
    obtain ⟨k, w⟩ := hd
    by_cases hk : k = key
    · subst hk
      simp [setVal, getVal, Ne.symm h]
    · simp [setVal, getVal, hk, ih]

theorem getVal_eq_none_of_not_mem_keys (l : List (String × Doc)) (k : String)
    (h : k ∉ l.map Prod.fst) : getVal l k = none := by
  induction l with
  | nil => rfl
  | cons hd rest ih =>
    obtain ⟨k2, v⟩ := hd
    rw [List.map_cons, List.mem_cons] at h
    push_neg at h
    simp [getVal, Ne.symm h.1, ih h.2]

/-- Equation of `update_dict` for a non-mapping override value, stated
without the compiled match's side condition. -/
theorem update_dict_cons_of_not_obj (tf rest : List (String × Doc))
    (key : String) (value : Doc) (hv : value.isObj = false) :
    update_dict (.obj tf) ((key, value) :: rest) =
      update_dict (.obj (setVal tf key value)) rest := by
  cases value
  case obj vf => exact absurd hv (by simp [Doc.isObj])
  all_goals simp [update_dict]

/-- Equation of `update_dict` for a mapping override value on a mapping
target. -/
theorem update_dict_cons_obj (tf rest vf : List (String × Doc))
    (key : String) :
    update_dict (.obj tf) ((key, .obj vf) :: rest) =
      match update_dict ((getVal tf key).getD (.obj [])) vf with
      | .ok r => update_dict (.obj (setVal tf key r)) rest
      | .error e => .error e := by
  rw [update_dict]

/-- Derived equation: when the recursive merge of a mapping override value
succeeds, its result is assigned to the key and the loop continues. -/
theorem update_dict_cons_obj_ok (tf rest vf : List (String × Doc))
    (key : String) (r : Doc)
    (h : update_dict ((getVal tf key).getD (.obj [])) vf = .ok r) :
    update_dict (.obj tf) ((key, .obj vf) :: rest) =
      update_dict (.obj (setVal tf key r)) rest := by
  rw [update_dict_cons_obj, h]

/-- Derived equation: when the recursive merge of a mapping override value
raises, the exception propagates. -/
theorem update_dict_cons_obj_error (tf rest vf : List (String × Doc))
    (key : String) (e : PyError)
    (h : update_dict ((getVal tf key).getD (.obj [])) vf = .error e) :
    update_dict (.obj tf) ((key, .obj vf) :: rest) = .error e := by
  rw [update_dict_cons_obj, h]

/-- `initial[key] = v` on a non-dict `initial` raises `TypeError` at the
first loop iteration when the override value is not a mapping. -/
theorem update_dict_not_obj_typeError (initial : Doc)
    (hni : initial.isObj = false) (key : String) (value : Doc)
    (hv : value.isObj = false) (rest : List (String × Doc)) :
    update_dict initial ((key, value) :: rest) = .error .typeError := by
  cases initial
  case obj f => simp [Doc.isObj] at hni
  all_goals cases value
  all_goals try simp [Doc.isObj] at hv
  all_goals simp [update_dict]

/-- `initial.get(key, {})` on a non-dict `initial` raises `AttributeError`
at the first loop iteration when the override value is a mapping. -/
theorem update_dict_not_obj_attributeError (initial : Doc)
    (hni : initial.isObj = false) (key : String)
    (vf rest : List (String × Doc)) :
    update_dict initial ((key, .obj vf) :: rest) = .error .attributeError := by
  cases initial
  case obj f => simp [Doc.isObj] at hni
  all_goals simp [update_dict]

/-- A successful `update_dict` on a dict returns a dict. -/
theorem update_dict_ok_obj (of : List (String × Doc)) :
    ∀ (tf : List (String × Doc)) (d : Doc),
      update_dict (.obj tf) of = .ok d → ∃ df, d = .obj df := by
  induction of with
  | nil =>
    intro tf d h
    rw [update_dict] at h
    injection h with h
    exact ⟨tf, h.symm⟩
  | cons hd rest ih =>
    intro tf d h
    obtain ⟨key, value⟩ := hd
    cases value
    case obj vf =>
      rcases hr : update_dict ((getVal tf key).getD (.obj [])) vf with e | r
      · rw [update_dict_cons_obj_error _ _ _ _ _ hr] at h
        exact absurd h (by simp)
      · rw [update_dict_cons_obj_ok _ _ _ _ _ hr] at h
        exact ih _ _ h
    all_goals
      rw [update_dict_cons_of_not_obj _ _ _ _ (by simp [Doc.isObj])] at h
    all_goals exact ih _ _ h

/-- `update_dict` can only raise `TypeError` (item assignment on a
non-dict) or `AttributeError` (`.get` on a non-dict); in particular it
never raises `UnsupportedLocale`. -/
theorem update_dict_error_shape (initial : Doc) (other : List (String × Doc)) :
    ∀ e : PyError, update_dict initial other = .error e →
      e = .typeError ∨ e = .attributeError := by
  induction initial, other using update_dict.induct with
  | case1 initial =>
    intro e h
    rw [update_dict] at h
    exact absurd h (by simp)
  | case2 key rest vfields ifields r hr ih1 ih2 =>
    intro e h
    rw [update_dict_cons_obj_ok _ _ _ _ _ hr] at h
    exact ih2 e h
  | case3 key rest vfields ifields e2 he ih =>
    intro e h
    rw [update_dict_cons_obj_error _ _ _ _ _ he] at h
    injection h with h
    exact h ▸ ih e2 he
  | case4 initial key rest vfields hni =>
    intro e h
    have hni2 : initial.isObj = false := by
      cases initial
      case obj f => exact absurd rfl (hni f)
      all_goals simp [Doc.isObj]
    rw [update_dict_not_obj_attributeError initial hni2] at h
    injection h with h
    exact Or.inr h.symm
  | case5 key value rest ifields hnv ih =>
    intro e h
    have hv : value.isObj = false := by
      cases value
      case obj vf => exact absurd rfl (hnv vf)
      all_goals simp [Doc.isObj]
    rw [update_dict_cons_of_not_obj _ _ _ _ hv] at h
    exact ih e h
  | case6 initial key value rest hnv hni =>
    intro e h
    have hv : value.isObj = false := by
      cases value
      case obj vf => exact absurd rfl (hnv vf)
      all_goals simp [Doc.isObj]
    have hni2 : initial.isObj = false := by
      cases initial
      case obj f => exact absurd rfl (hni f)
      all_goals simp [Doc.isObj]
    rw [update_dict_not_obj_typeError initial hni2 key value hv] at h
    injection h with h
    exact Or.inl h.symm

/-- The key-wise description of a successful `update_dict` merge: keys only
in the target keep their target value; a key whose override value is a
mapping is bound to the result of the recursive merge with the target value
at that key (a missing target value merging as the empty mapping `{}`); a
key whose override value is not a mapping is bound to that override value
wholesale.  `of` has distinct keys, as the item list of a Python dict
does. -/
theorem update_dict_merge_clauses (of : List (String × Doc)) :
    ∀ tf df : List (String × Doc),
      (of.map Prod.fst).Nodup →
      update_dict (.obj tf) of = .ok (.obj df) →
      ((∀ k v, getVal tf k = some v → getVal of k = none →
          getVal df k = some v) ∧
       (∀ k vf, getVal of k = some (.obj vf) →
          ∃ r, update_dict ((getVal tf k).getD (.obj [])) vf = .ok r ∧
            getVal df k = some r) ∧
       (∀ k v, getVal of k = some v → v.isObj = false →
          getVal df k = some v)) := by
  induction of with
  | nil =>
    intro tf df hnd h
    rw [update_dict] at h
    injection h with h
    injection h with h
    subst h
    exact ⟨fun k v hv _ => hv,
           fun k vf hvf => by simp [getVal] at hvf,
           fun k v hv _ => by simp [getVal] at hv⟩
  | cons hd rest ih =>
    intro tf df hnd h
    obtain ⟨key, value⟩ := hd
    rw [List.map_cons, List.nodup_cons] at hnd
    obtain ⟨hkey, hnd'⟩ := hnd
    cases value
    case obj vf =>
      rcases hr : update_dict ((getVal tf key).getD (.obj [])) vf with e | r
      · rw [update_dict_cons_obj_error _ _ _ _ _ hr] at h
        exact absurd h (by simp)
      · rw [update_dict_cons_obj_ok _ _ _ _ _ hr] at h
        obtain ⟨c1, c2, c3⟩ := ih (setVal tf key r) df hnd' h
        refine ⟨?_, ?_, ?_⟩
        · intro k v hv hnone
          rw [getVal] at hnone
          by_cases hk : key = k
          · rw [if_pos hk] at hnone
            exact absurd hnone (by simp)
          · rw [if_neg hk] at hnone
            refine c1 k v ?_ hnone
            rw [getVal_setVal_ne tf key k r (fun hh => hk hh.symm)]
            exact hv
        · intro k vf2 hvf2
          rw [getVal] at hvf2
          by_cases hk : key = k
          · subst hk
            rw [if_pos rfl] at hvf2
            injection hvf2 with hvf2
            injection hvf2 with hvf2
            subst hvf2
            refine ⟨r, hr, ?_⟩
            exact c1 key r (getVal_setVal_self tf key r)
              (getVal_eq_none_of_not_mem_keys rest key hkey)
          · rw [if_neg hk] at hvf2
            obtain ⟨r2, hr2, hdf⟩ := c2 k vf2 hvf2
            refine ⟨r2, ?_, hdf⟩
            rwa [getVal_setVal_ne tf key k r (fun hh => hk hh.symm)] at hr2
        · intro k v hv hno
          rw [getVal] at hv
          by_cases hk : key = k
          · rw [if_pos hk] at hv
            injection hv with hv
            rw [← hv] at hno
            simp [Doc.isObj] at hno
          · rw [if_neg hk] at hv
            exact c3 k v hv hno
    all_goals
      rw [update_dict_cons_of_not_obj _ _ _ _ (by simp [Doc.isObj])] at h
    all_goals (
      obtain ⟨c1, c2, c3⟩ := ih _ df hnd' h
      refine ⟨?_, ?_, ?_⟩
      · intro k v hv hnone
        rw [getVal] at hnone
        by_cases hk : key = k
        · rw [if_pos hk] at hnone
          exact absurd hnone (by simp)
        · rw [if_neg hk] at hnone
          refine c1 k v ?_ hnone
          rw [getVal_setVal_ne tf key k _ (fun hh => hk hh.symm)]
          exact hv
      · intro k vf2 hvf2
        rw [getVal] at hvf2
        by_cases hk : key = k
        · rw [if_pos hk] at hvf2
          injection hvf2 with hvf2
          exact absurd hvf2 (by simp)
        · rw [if_neg hk] at hvf2
          obtain ⟨r2, hr2, hdf⟩ := c2 k vf2 hvf2
          refine ⟨r2, ?_, hdf⟩
          rwa [getVal_setVal_ne tf key k _ (fun hh => hk hh.symm)] at hr2
      · intro k v hv hno
        rw [getVal] at hv
        by_cases hk : key = k
        · rw [if_pos hk] at hv
          injection hv with hv
          subst hk
          rw [← hv]
          exact c1 key _ (getVal_setVal_self tf key _)
            (getVal_eq_none_of_not_mem_keys rest key hkey)
        · rw [if_neg hk] at hv
          exact c3 k v hv hno)

/-! ## Lemmas about the Luhn checksum -/

theorem pyIntList_of_digits (l : List Char) (h : ∀ c ∈ l, c.isDigit) :
    pyIntList l = some (l.map fun c => c.toNat - 48) := by
  induction l with
  | nil => rfl
  | cons c rest ih =>
    rw [pyIntList]
    simp [pyInt, h c (List.mem_cons_self c rest),
      ih (fun x hx => h x (List.mem_cons_of_mem c hx))]

theorem digit_le_nine (c : Char) (h : c.isDigit) : c.toNat - 48 ≤ 9 := by
  simp [Char.isDigit] at h
  have h2 : c.val.toNat ≤ 57 := UInt32.toNat_le_of_le (by decide) h.2
  show c.val.toNat - 48 ≤ 9
  omega

theorem luhnSum_eq_spec (l : List Nat) (h : ∀ d ∈ l, d ≤ 9) (i : Nat) :
    luhnSum i l = luhnSpecSum i l := by
  induction l generalizing i with
  | nil => rfl
  | cons d rest ih =>
    have hd : d ≤ 9 := h d (List.mem_cons_self d rest)
    have hterm : luhnTerm i d = luhnSpecTerm i d := by
      by_cases hi : i % 2 = 0
      · simp [luhnTerm, luhnSpecTerm, hi]
      · have hgt : ¬ d > 9 := by omega
        simp [luhnTerm, luhnSpecTerm, hi, hgt]
    rw [luhnSum, luhnSpecSum, hterm,
      ih (fun x hx => h x (List.mem_cons_of_mem d hx)) (i + 1)]

theorem luhnSum_zeros (n : Nat) (i : Nat) : luhnSum i (List.replicate n 0) = 0 := by
  induction n generalizing i with
  | zero => rfl
  | succ m ih =>
    rw [List.replicate_succ, luhnSum, ih]
    simp [luhnTerm]

/-- C6: for every well-formed digit string, `luhn_checksum` is the pure
deterministic function computed exactly as the spec words it (reversed
iteration, doubling at even 0-based positions, subtracting 9 above 9,
summing, returning `(sum * 9) mod 10` as a decimal digit string); in
particular `luhn_checksum "7992739871" = "3"`, and any all-zero input
yields `"0"`. -/
theorem C6_luhn_checksum_matches_spec :
    (∀ num : String, (∀ c ∈ num.data, c.isDigit) →
        luhn_checksum num =
          some (checksum_spec (num.data.map fun c => c.toNat - 48))) ∧
    luhn_checksum "7992739871" = some "3" ∧
    (∀ n : Nat, luhn_checksum (String.mk (List.replicate n '0')) = some "0") := by
  refine ⟨?_, by decide, ?_⟩
  · intro num h
    have hsum : luhnSum 0 ((num.data.map fun c => c.toNat - 48).reverse) =
        luhnSpecSum 0 ((num.data.map fun c => c.toNat - 48).reverse) := by
      apply luhnSum_eq_spec
      intro d hd
      rw [List.mem_reverse] at hd
      obtain ⟨c, hc, rfl⟩ := List.mem_map.mp hd
      exact digit_le_nine c (h c hc)
    simp [luhn_checksum, pyIntList_of_digits num.data h, checksum_spec, hsum]
  · intro n
    have hdata : (String.mk (List.replicate n '0')).data = List.replicate n '0' := rfl
    have hconv : pyIntList (List.replicate n '0') =
        some (List.replicate n 0) := by
      have := pyIntList_of_digits (List.replicate n '0')
        (fun c hc => by rw [List.eq_of_mem_replicate hc]; decide)
      simpa [List.map_replicate] using this
    simp [luhn_checksum, hdata, hconv, List.reverse_replicate, luhnSum_zeros]
    rfl

/-- Witness for C6 at the concrete digit string `"12"`. -/
theorem C6_luhn_checksum_matches_spec_witness :
    luhn_checksum "12" = some (checksum_spec ("12".data.map fun c => c.toNat - 48)) :=
  C6_luhn_checksum_matches_spec.1 "12" (by decide)

/-- C10: `luhn_checksum` applied to the empty digit string does not fail
and returns `"0"`: the loop over the digits contributes nothing, so the
check sum is 0 and the result is `str(0 * 9 % 10)`. -/
theorem C10_luhn_checksum_empty_string : luhn_checksum "" = some "0" := by rfl

/-! ## C4 and C5: the deep-merge contract of `update_dict` -/

/-- C4 counterexample: the claim quantifies over every pair of mapping
documents, but on target `{"x": 5}` and overrides `{"x": {"y": 1}}` the
merge raises `TypeError` (the recursion reaches `update_dict(5, {"y": 1})`
and executes `(5)["y"] = 1`), so no merged document is produced at all. -/
theorem C4_counterexample_merge_raises :
    update_dict (.obj [("x", .num 5)]) [("x", .obj [("y", .num 1)])] =
      .error .typeError := by
  simp [update_dict, getVal, setVal]

/-- C4 (amended): whenever `update_dict` completes without raising, the
merged document satisfies the claimed key-wise description — keys present
only in the target keep their target value, a key whose override value is a
mapping is bound to the recursive merge of the target value at that key
(a missing target value merging as an empty mapping), and a key whose
override value is not a mapping is bound to the override value wholesale —
and the claim's example merge holds:
`deepMerge({"a":{"b":1,"c":2}}, {"a":{"b":9}}) = {"a":{"b":9,"c":2}}`.
The un-amended universal claim fails when a mapping override value meets a
non-mapping target value, where the code raises instead of producing a
document. -/
theorem C4_update_dict_merge_description :
    (∀ tf of df : List (String × Doc),
        (of.map Prod.fst).Nodup →
        update_dict (.obj tf) of = .ok (.obj df) →
        ((∀ k v, getVal tf k = some v → getVal of k = none →
            getVal df k = some v) ∧
         (∀ k vf, getVal of k = some (.obj vf) →
            ∃ r, update_dict ((getVal tf k).getD (.obj [])) vf = .ok r ∧
              getVal df k = some r) ∧
         (∀ k v, getVal of k = some v → v.isObj = false →
            getVal df k = some v))) ∧
    update_dict (.obj [("a", .obj [("b", .num 1), ("c", .num 2)])])
        [("a", .obj [("b", .num 9)])] =
      .ok (.obj [("a", .obj [("b", .num 9), ("c", .num 2)])]) := by
  constructor
  · intro tf of df hnd h
    exact update_dict_merge_clauses of tf df hnd h
  · simp [update_dict, getVal, setVal]

/-- Witness for C4 at a concrete merge: `deepMerge({"q": 3}, {"r": 4})`
keeps the target-only key `"q"` and adds the non-mapping override `"r"`. -/
theorem C4_update_dict_merge_description_witness :
    getVal [("q", Doc.num 3), ("r", Doc.num 4)] "q" = some (Doc.num 3) ∧
    getVal [("q", Doc.num 3), ("r", Doc.num 4)] "r" = some (Doc.num 4) :=
  ⟨(C4_update_dict_merge_description.1 [("q", Doc.num 3)] [("r", Doc.num 4)]
      [("q", Doc.num 3), ("r", Doc.num 4)] (by simp)
      (by simp [update_dict, getVal, setVal])).1 "q" (Doc.num 3)
      (by simp [getVal]) (by simp [getVal]),
   (C4_update_dict_merge_description.1 [("q", Doc.num 3)] [("r", Doc.num 4)]
      [("q", Doc.num 3), ("r", Doc.num 4)] (by simp)
      (by simp [update_dict, getVal, setVal])).2.2 "r" (Doc.num 4)
      (by simp [getVal]) (by simp [Doc.isObj])⟩

/-- C5 counterexample: `deepMerge({"a":1}, {"a":{"b":2}})` does not return
`{"a":{"b":2}}`; the code recurses into the non-mapping base value `1` and
the assignment `(1)["b"] = 2` raises `TypeError`. -/
theorem C5_counterexample_no_full_replacement :
    update_dict (.obj [("a", .num 1)]) [("a", .obj [("b", .num 2)])] =
      .error .typeError ∧
    update_dict (.obj [("a", .num 1)]) [("a", .obj [("b", .num 2)])] ≠
      .ok (.obj [("a", .obj [("b", .num 2)])]) := by
  constructor
  · simp [update_dict, getVal, setVal]
  · simp [update_dict, getVal, setVal]

/-- C5 (amended): when an override value is a non-empty mapping but the
corresponding base value exists and is not a mapping, `update_dict` does
not replace the base value: it raises at the first entry of the override
mapping — `AttributeError` when that entry's value is itself a mapping
(`.get` on a non-dict), `TypeError` otherwise (item assignment on a
non-dict). -/
theorem C5_override_mapping_over_scalar_raises (tf : List (String × Doc))
    (k : String) (bv : Doc) (k2 : String) (v2 : Doc)
    (vf : List (String × Doc))
    (hget : getVal tf k = some bv) (hno : bv.isObj = false) :
    update_dict (.obj tf) [(k, .obj ((k2, v2) :: vf))] =
      .error (if v2.isObj then PyError.attributeError else PyError.typeError) := by
  have hinner : update_dict ((getVal tf k).getD (.obj [])) ((k2, v2) :: vf) =
      .error (if v2.isObj then PyError.attributeError else PyError.typeError) := by
    rw [hget, Option.getD_some]
    cases v2
    case obj vf2 =>
      simp only [Doc.isObj, if_true]
      exact update_dict_not_obj_attributeError bv hno k2 vf2 vf
    all_goals simp only [Doc.isObj, Bool.false_eq_true, if_false]
    all_goals refine update_dict_not_obj_typeError bv hno k2 _ ?_ vf
    all_goals rfl
  exact update_dict_cons_obj_error _ _ _ _ _ hinner

/-- Witness for C5 at base `{"p": "s"}` and override `{"p": {"q": null}}`. -/
theorem C5_override_mapping_over_scalar_raises_witness :
    update_dict (.obj [("p", .str "s")]) [("p", .obj [("q", .null)])] =
      .error (if (Doc.null).isObj then PyError.attributeError
              else PyError.typeError) :=
  C5_override_mapping_over_scalar_raises [("p", .str "s")] "p" (.str "s")
    "q" .null [] (by simp [getVal]) rfl

/-! ## Lemmas about `pySplitChar`, `splitHead` and `suffixAfterLast` -/

theorem pySplitChar_ne_nil (sep : Char) (l : List Char) :
    pySplitChar sep l ≠ [] := by
  cases l with
  | nil => simp [pySplitChar]
  | cons c rest =>
    rw [pySplitChar]
    rcases hr : pySplitChar sep rest with _ | ⟨seg, segs⟩
    · simp
    · by_cases h : c = sep <;> simp [h]

theorem pySplitChar_of_not_mem (sep : Char) (l : List Char) (h : sep ∉ l) :
    pySplitChar sep l = [l] := by
  induction l with
  | nil => rfl
  | cons c rest ih =>
    rw [List.mem_cons] at h
    push_neg at h
    rw [pySplitChar, ih h.2]
    simp [Ne.symm h.1]

theorem sep_not_mem_head_pySplitChar (sep : Char) (l : List Char) :
    sep ∉ (pySplitChar sep l).headD [] := by
  induction l with
  | nil => simp [pySplitChar]
  | cons c rest ih =>
    rw [pySplitChar]
    rcases hr : pySplitChar sep rest with _ | ⟨seg, segs⟩
    · simp
    · rw [hr] at ih
      by_cases h : c = sep
      · simp [h]
      · simp only [List.headD_cons] at ih ⊢
        simp [h, List.mem_cons, Ne.symm h, ih]

theorem suffixAfterLast_of_not_mem (sep : Char) (l : List Char)
    (h : sep ∉ l) : suffixAfterLast sep l = l := by
  cases l with
  | nil => rfl
  | cons c rest =>
    rw [List.mem_cons] at h
    push_neg at h
    rw [suffixAfterLast]
    simp [h.2, Ne.symm h.1]

theorem two_le_length_pySplitChar (sep : Char) (l : List Char)
    (h : sep ∈ l) : 2 ≤ (pySplitChar sep l).length := by
  induction l with
  | nil => simp at h
  | cons c rest ih =>
    rw [pySplitChar]
    rcases hr : pySplitChar sep rest with _ | ⟨seg, segs⟩
    · exact absurd hr (pySplitChar_ne_nil sep rest)
    · by_cases hc : c = sep
      · simp [hc]
      · have hm : sep ∈ rest := by
          rcases List.mem_cons.mp h with h1 | h1
          · exact absurd h1.symm hc
          · exact h1
        have := ih hm
        rw [hr] at this
        simp only [List.length_cons] at this ⊢
        simp [hc]
        omega

theorem getLastD_of_ne_nil {α : Type} (l : List α) (h : l ≠ []) (a b : α) :
    l.getLastD a = l.getLastD b := by
  cases l with
  | nil => exact absurd rfl h
  | cons x xs => rw [List.getLastD_cons, List.getLastD_cons]

/-- `url.rsplit(sep)[-1]` is exactly the suffix after the last occurrence
of the separator. -/
theorem getLastD_pySplitChar (sep : Char) (l : List Char) :
    (pySplitChar sep l).getLastD [] = suffixAfterLast sep l := by
  induction l with
  | nil => rfl
  | cons c rest ih =>
    rcases hr : pySplitChar sep rest with _ | ⟨seg, segs⟩
    · exact absurd hr (pySplitChar_ne_nil sep rest)
    · rw [hr, List.getLastD_cons] at ih
      rw [pySplitChar, suffixAfterLast]
      simp only [hr]
      by_cases hmem : sep ∈ rest
      · have hlen := two_le_length_pySplitChar sep rest hmem
        rw [hr] at hlen
        simp only [List.length_cons] at hlen
        have hsegs : segs ≠ [] := by
          cases segs
          · simp at hlen
          · simp
        rw [if_pos hmem]
        by_cases hc : c = sep
        · rw [if_pos hc, List.getLastD_cons, List.getLastD_cons]
          exact ih
        · rw [if_neg hc, List.getLastD_cons,
            getLastD_of_ne_nil segs hsegs (c :: seg) seg]
          exact ih
      · rw [if_neg hmem]
        have h2 := pySplitChar_of_not_mem sep rest hmem
        rw [hr] at h2
        injection h2 with h2a h2b
        subst h2a
        subst h2b
        by_cases hc : c = sep
        · rw [if_pos hc, if_pos hc, List.getLastD_cons, List.getLastD_cons]
          rfl
        · rw [if_neg hc, if_neg hc, List.getLastD_cons]
          rfl

/-! ## C8: gender-token normalization -/

/-- C8: `check_gender`, after string conversion and lower-casing,
deterministically maps `"1"`, `"m"`, `"male"` (and `"M"`) to `"male"` and
`"2"`, `"f"`, `"female"` to `"female"`; `"0"`, `"9"` and `None` each yield
one of `male`/`female` (whichever `random.choice` picked); and every other
token raises `UnexpectedGender` whose message lists the recognized token
set. -/
theorem C8_check_gender_normalization :
    (∀ o : Bool,
        check_gender o (.str "1") = .ok "male" ∧
        check_gender o (.str "m") = .ok "male" ∧
        check_gender o (.str "M") = .ok "male" ∧
        check_gender o (.str "male") = .ok "male" ∧
        check_gender o (.int 1) = .ok "male" ∧
        check_gender o (.str "2") = .ok "female" ∧
        check_gender o (.str "f") = .ok "female" ∧
        check_gender o (.str "F") = .ok "female" ∧
        check_gender o (.str "female") = .ok "female" ∧
        check_gender o (.int 2) = .ok "female" ∧
        (check_gender o (.str "0") = .ok "male" ∨
         check_gender o (.str "0") = .ok "female") ∧
        (check_gender o (.str "9") = .ok "male" ∨
         check_gender o (.str "9") = .ok "female") ∧
        (check_gender o (.int 0) = .ok "male" ∨
         check_gender o (.int 0) = .ok "female") ∧
        (check_gender o (.int 9) = .ok "male" ∨
         check_gender o (.int 9) = .ok "female") ∧
        (check_gender o .none = .ok "male" ∨
         check_gender o .none = .ok "female")) ∧
    (∀ (o : Bool) (g : GenderArg), g ≠ GenderArg.none →
        (["0", "1", "2", "9", "f", "female", "m", "male"] : List String).contains
            (pyLower (pyStrGender g)) = false →
        check_gender o g = .error (.unexpectedGender
          "Gender must be 0, 1, 2, 9, f, female, m, male.")) := by
  refine ⟨fun o => by cases o <;> decide, ?_⟩
  intro o g hne hmem
  cases g with
  | none => exact absurd rfl hne
  | int n =>
    simp only [check_gender, hmem, Bool.false_eq_true, if_false]
    rfl
  | str s =>
    simp only [check_gender, hmem, Bool.false_eq_true, if_false]
    rfl

/-- Witness for C8 at the unrecognized token `"x"`. -/
theorem C8_check_gender_normalization_witness :
    check_gender false (.str "x") = .error (.unexpectedGender
      "Gender must be 0, 1, 2, 9, f, female, m, male.") :=
  C8_check_gender_normalization.2 false (.str "x") (by decide) (by decide)

/-! ## C9: remote asset download -/

/-- C9 counterexample: with an empty (and hence also with an absent,
defaulted-to-`''`) `url`, the code still attempts a transfer — `if url is
not None` is true for `''` — and returns `''` rather than `None`:
`urlretrieve('', save_path + '')` is invoked. -/
theorem C9_counterexample_empty_url_still_downloads :
    download_image (some "") "" false = (some ⟨"", ""⟩, some "") ∧
    (download_image (some "") "" false).1 ≠ none ∧
    (download_image (some "") "" false).2 ≠ none := by
  refine ⟨rfl, ?_, ?_⟩ <;> simp [download_image]

/-- C9 (amended): `download_image` returns `None`, with no transfer
attempted, exactly when `url` is `None`; for every string `url` — the
empty string included — it attempts the transfer to
`save_path + image_name` and returns the name of the downloaded file,
which is the final path segment of the URL (the substring after the last
`'/'`). -/
theorem C9_download_image_behaviour :
    (∀ (sp : String) (ctx : Bool), download_image none sp ctx = (none, none)) ∧
    (∀ (u sp : String) (ctx : Bool),
        download_image (some u) sp ctx =
          (some ⟨u, sp ++ String.mk ((pySplitChar '/' u.data).getLastD [])⟩,
           some (String.mk ((pySplitChar '/' u.data).getLastD [])))) ∧
    (∀ u : String,
        String.mk ((pySplitChar '/' u.data).getLastD []) =
          String.mk (suffixAfterLast '/' u.data)) := by
  refine ⟨fun sp ctx => rfl, fun u sp ctx => rfl, fun u => ?_⟩
  rw [getLastD_pySplitChar]

/-! ## Lemmas about `pyContains`, `splitHead`, caches and `pull` -/

theorem pyContains_false_iff (s : String) (c : Char) :
    pyContains s c = false ↔ c ∉ s.data := by
  simp [pyContains]

theorem splitHead_of_not_contains (sep : Char) (s : String)
    (h : pyContains s sep = false) : splitHead sep s = s := by
  rw [splitHead,
    pySplitChar_of_not_mem sep s.data ((pyContains_false_iff s sep).mp h)]
  rfl

/-- The first segment of a split never contains the separator: a base
locale code contains no `'-'`. -/
theorem pyContains_splitHead (sep : Char) (s : String) :
    pyContains (splitHead sep s) sep = false := by
  rw [splitHead, pyContains]
  simpa using sep_not_mem_head_pySplitChar sep s.data

theorem lookup_cons_ne {α β : Type} [BEq α] [LawfulBEq α] (a k : α) (b : β)
    (l : List (α × β)) (h : a ≠ k) :
    List.lookup a ((k, b) :: l) = List.lookup a l := by
  have hb : (a == k) = false := beq_eq_false_iff_ne.mpr h
  simp [List.lookup, hb]

/-- `lru_cache` hit: the memoized document is returned, the cache is
untouched and no filesystem read happens. -/
theorem pull_hit (fs : FS) (supported : LocaleTable) (cache : Cache)
    (file locale : String) (d : Doc)
    (h : List.lookup (file, locale) cache = some d) :
    pull fs supported cache file locale = ⟨.ok d, cache, []⟩ := by
  rw [pull]
  simp only [h]

/-- `lru_cache` miss with a normal return: the result is memoized. -/
theorem pull_miss_ok (fs : FS) (supported : LocaleTable) (cache : Cache)
    (file locale : String) (d : Doc) (reads : List (String × String))
    (hc : List.lookup (file, locale) cache = none)
    (hb : pull_body fs supported file locale = (.ok d, reads)) :
    pull fs supported cache file locale =
      ⟨.ok d, ((file, locale), d) :: cache, reads⟩ := by
  rw [pull]
  simp only [hc, hb]

/-- `lru_cache` miss with an exception: nothing is memoized. -/
theorem pull_miss_error (fs : FS) (supported : LocaleTable) (cache : Cache)
    (file locale : String) (e : PyError) (reads : List (String × String))
    (hc : List.lookup (file, locale) cache = none)
    (hb : pull_body fs supported file locale = (.error e, reads)) :
    pull fs supported cache file locale = ⟨.error e, cache, reads⟩ := by
  rw [pull]
  simp only [hc, hb]

/-- `pull`'s body on an unsupported (lower-cased) locale code raises
`UnsupportedLocale` before any filesystem access. -/
theorem pull_body_unsupported (fs : FS) (supported : LocaleTable)
    (file locale : String)
    (h : List.lookup (pyLower locale) supported = none) :
    pull_body fs supported file locale =
      (.error (.unsupportedLocale
        ("Locale " ++ pyLower locale ++ " is not supported")), []) := by
  rw [pull_body]
  simp only [h]

/-- `pull`'s body on a simple (no `'-'`) supported lower-case locale code
returns exactly the parsed base document, reading only that file. -/
theorem pull_body_simple (fs : FS) (supported : LocaleTable)
    (file locale : String)
    (hlow : pyLower locale = locale)
    (hsup : (List.lookup locale supported).isSome = true)
    (hnc : pyContains locale '-' = false) (d : Doc)
    (hfs : fs locale file = some d) :
    pull_body fs supported file locale = (.ok d, [(locale, file)]) := by
  obtain ⟨meta, hm⟩ := Option.isSome_iff_exists.mp hsup
  rw [pull_body]
  simp only [hlow, hm, splitHead_of_not_contains '-' locale hnc, hfs, hnc,
    Bool.false_eq_true, if_false]

/-- `pull`'s body on a composite supported lower-case locale code loads the
base file, loads the region file, and returns the result of the in-place
merge. -/
theorem pull_body_composite (fs : FS) (supported : LocaleTable)
    (file locale : String)
    (hlow : pyLower locale = locale)
    (hsup : (List.lookup locale supported).isSome = true)
    (hc : pyContains locale '-' = true)
    (baseDoc : Doc) (rf : List (String × Doc))
    (hbase : fs (splitHead '-' locale) file = some baseDoc)
    (hreg : fs locale file = some (.obj rf)) :
    pull_body fs supported file locale =
      (update_dict baseDoc rf,
       [(splitHead '-' locale, file), (locale, file)]) := by
  obtain ⟨meta, hm⟩ := Option.isSome_iff_exists.mp hsup
  rw [pull_body]
  simp only [hlow, hm, hbase, hc, hreg, if_true]

/-- `pull`'s body never raises `UnsupportedLocale` when the lower-cased
code is in the table: the remaining failure modes are I/O errors from
`get_data` and `TypeError`/`AttributeError` from `update_dict`. -/
theorem pull_body_no_unsupported (fs : FS) (supported : LocaleTable)
    (file locale : String) (msg : String)
    (hsup : (List.lookup (pyLower locale) supported).isSome = true) :
    (pull_body fs supported file locale).1 ≠
      .error (.unsupportedLocale msg) := by
  obtain ⟨meta, hm⟩ := Option.isSome_iff_exists.mp hsup
  rw [pull_body]
  simp only [hm]
  cases hfs : fs (splitHead '-' (pyLower locale)) file with
  | none => simp
  | some data =>
    by_cases hc : pyContains (pyLower locale) '-'
    · simp only [hc, if_true]
      cases hreg : fs (pyLower locale) file with
      | none => simp
      | some region =>
        cases region with
        | obj rf =>
          cases hu : update_dict data rf with
          | error e =>
            rcases update_dict_error_shape data rf e hu with h | h <;>
              simp [hu, h]
          | ok d => simp [hu]
        | null => simp
        | bool b => simp
        | num n => simp
        | str s => simp
        | arr es => simp
    · simp [hc]

/-! ## C7: case-insensitive lookup and `UnsupportedLocale` -/

/-- C7: `locale_info` and `pull` lower-case the locale argument before the
lookup and raise `UnsupportedLocale` exactly when the lower-cased code is
absent from the Supported Locales table; `resolve("EN")` and
`resolve("en")` agree, and `resolve("xx-impossible")` fails with
`UnsupportedLocale`. -/
theorem C7_locale_lowercase_and_unsupported :
    (∀ (supported : LocaleTable) (locale : String),
        locale_info supported locale =
          match List.lookup (pyLower locale) supported with
          | none => .error (.unsupportedLocale
              ("Locale " ++ pyLower locale ++ " is not supported"))
          | some meta => .ok meta.name) ∧
    (∀ (fs : FS) (supported : LocaleTable) (cache : Cache)
        (file locale : String),
        List.lookup (file, locale) cache = none →
        ((pull fs supported cache file locale).result =
            .error (.unsupportedLocale
              ("Locale " ++ pyLower locale ++ " is not supported")) ↔
          List.lookup (pyLower locale) supported = none)) ∧
    locale_info SUPPORTED_LOCALES "EN" = locale_info SUPPORTED_LOCALES "en" ∧
    locale_info SUPPORTED_LOCALES "en" = .ok "English" ∧
    locale_info SUPPORTED_LOCALES "xx-impossible" =
      .error (.unsupportedLocale "Locale xx-impossible is not supported") := by
  refine ⟨fun supported locale => ?_, ?_, by decide, by decide, by decide⟩
  · rw [locale_info]
  · intro fs supported cache file locale hcache
    constructor
    · intro h
      rcases hsup : List.lookup (pyLower locale) supported with _ | meta
      · rfl
      · exfalso
        rcases hb : pull_body fs supported file locale with ⟨r, reads⟩
        rcases r with e | d
        · rw [pull_miss_error fs supported cache file locale e reads
            hcache hb] at h
          have h2 : Except.error (α := Doc) e =
              .error (.unsupportedLocale
                ("Locale " ++ pyLower locale ++ " is not supported")) := h
          have h3 := pull_body_no_unsupported fs supported file locale
            ("Locale " ++ pyLower locale ++ " is not supported")
            (by rw [hsup]; rfl)
          rw [hb] at h3
          exact h3 h2
        · rw [pull_miss_ok fs supported cache file locale d reads
            hcache hb] at h
          exact absurd h (by simp)
    · intro h
      rw [pull_miss_error fs supported cache file locale _ []
        hcache (pull_body_unsupported fs supported file locale h)]

/-- Witness for C7: on a mock filesystem with no files, pulling the
unsupported code `"xx"` raises `UnsupportedLocale` and pulling the
supported code `"EN"` does not. -/
theorem C7_locale_lowercase_and_unsupported_witness :
    ((pull (fun _ _ => none) SUPPORTED_LOCALES [] "x.json" "xx").result =
        .error (.unsupportedLocale "Locale xx is not supported") ↔
      List.lookup (pyLower "xx") SUPPORTED_LOCALES = none) ∧
    ((pull (fun _ _ => none) SUPPORTED_LOCALES [] "x.json" "EN").result =
        .error (.unsupportedLocale "Locale en is not supported") ↔
      List.lookup (pyLower "EN") SUPPORTED_LOCALES = none) :=
  ⟨C7_locale_lowercase_and_unsupported.2.1 (fun _ _ => none)
      SUPPORTED_LOCALES [] "x.json" "xx" rfl,
   C7_locale_lowercase_and_unsupported.2.1 (fun _ _ => none)
      SUPPORTED_LOCALES [] "x.json" "EN" rfl⟩

/-! ## C2: functional correctness of `pull` -/

/-- C2: for a supported simple (no `'-'`) lower-case locale code, `pull`
returns exactly the document parsed from `<data-root>/locale/file`; for a
supported composite code, `pull` returns exactly the result of
`update_dict` applied to the base document parsed from
`<data-root>/base/file` and the override document parsed from
`<data-root>/locale/file`. -/
theorem C2_pull_parses_and_merges (fs : FS) (supported : LocaleTable)
    (cache : Cache) (file locale : String)
    (hcache : List.lookup (file, locale) cache = none)
    (hlow : pyLower locale = locale)
    (hsup : (List.lookup locale supported).isSome = true) :
    (∀ d : Doc, pyContains locale '-' = false → fs locale file = some d →
        (pull fs supported cache file locale).result = .ok d) ∧
    (∀ (baseDoc : Doc) (rf : List (String × Doc)),
        pyContains locale '-' = true →
        fs (splitHead '-' locale) file = some baseDoc →
        fs locale file = some (.obj rf) →
        (pull fs supported cache file locale).result =
          update_dict baseDoc rf) := by
  constructor
  · intro d hnc hfs
    rw [pull_miss_ok fs supported cache file locale d _ hcache
      (pull_body_simple fs supported file locale hlow hsup hnc d hfs)]
  · intro baseDoc rf hc hbase hreg
    have hb := pull_body_composite fs supported file locale hlow hsup hc
      baseDoc rf hbase hreg
    rcases hu : update_dict baseDoc rf with e | d
    · rw [hu] at hb
      rw [pull_miss_error fs supported cache file locale e _ hcache hb]
    · rw [hu] at hb
      rw [pull_miss_ok fs supported cache file locale d _ hcache hb]

/-- Witness for C2 on a two-locale mock filesystem: the simple pull for
`"en"` returns the parsed base document. -/
theorem C2_pull_parses_and_merges_witness :
    (pull
        (fun l f =>
          if l = "en" ∧ f = "d.json" then some (.obj [("k", .num 1)])
          else none)
        SUPPORTED_LOCALES [] "d.json" "en").result =
      .ok (.obj [("k", .num 1)]) :=
  (C2_pull_parses_and_merges
      (fun l f =>
        if l = "en" ∧ f = "d.json" then some (.obj [("k", .num 1)])
        else none)
      SUPPORTED_LOCALES [] "d.json" "en" rfl rfl rfl).1
    (.obj [("k", .num 1)]) rfl (by simp)

/-! ## C3: memoization of `pull` -/

/-- C3: `pull` is memoized and idempotent — after a successful call, an
immediately repeated call with identical arguments returns the same
document, leaves the cache unchanged, and performs no filesystem access
(its read list is empty, so the file is not re-read and the merge is not
redone). -/
theorem C3_pull_memoized (fs : FS) (supported : LocaleTable) (cache : Cache)
    (file locale : String) (d : Doc)
    (h : (pull fs supported cache file locale).result = .ok d) :
    pull fs supported (pull fs supported cache file locale).cache
        file locale =
      ⟨.ok d, (pull fs supported cache file locale).cache, []⟩ := by
  rcases hc : List.lookup (file, locale) cache with _ | d0
  · rcases hb : pull_body fs supported file locale with ⟨r, reads⟩
    rcases r with e | d1
    · rw [pull_miss_error fs supported cache file locale e reads hc hb] at h
      exact absurd h (by simp)
    · rw [pull_miss_ok fs supported cache file locale d1 reads hc hb] at h ⊢
      have h2 : Except.ok (α := Doc) d1 = .ok d := h
      injection h2 with h2
      subst h2
      exact pull_hit fs supported _ file locale d1 (by simp [List.lookup])
  · rw [pull_hit fs supported cache file locale d0 hc] at h ⊢
    have h2 : Except.ok (α := Doc) d0 = .ok d := h
    injection h2 with h2
    subst h2
    exact pull_hit fs supported cache file locale d0 hc

/-- Witness for C3 on a one-file mock filesystem. -/
theorem C3_pull_memoized_witness :
    pull (fun l f => if l = "en" ∧ f = "d.json" then some (.num 7) else none)
        SUPPORTED_LOCALES
        (pull (fun l f => if l = "en" ∧ f = "d.json" then some (.num 7)
            else none) SUPPORTED_LOCALES [] "d.json" "en").cache
        "d.json" "en" =
      ⟨.ok (.num 7),
       (pull (fun l f => if l = "en" ∧ f = "d.json" then some (.num 7)
           else none) SUPPORTED_LOCALES [] "d.json" "en").cache, []⟩ :=
  C3_pull_memoized
    (fun l f => if l = "en" ∧ f = "d.json" then some (.num 7) else none)
    SUPPORTED_LOCALES [] "d.json" "en" (.num 7) rfl

/-! ## C1: the base document is unaffected by a regional pull -/

/-- C1: computing `pull(file, locale)` for a composite locale leaves the
document for its base locale unaffected: provided the cache holds nothing
stale for the base key (it is empty, unpopulated for that key, or holds the
parsed base document), a subsequent `pull(file, base)` returns exactly the
document parsed from `<data-root>/base/file`.  This holds whether the
regional pull succeeds or raises, because each `pull` invocation re-parses
its base file into fresh objects and the in-place merge touches only those,
never another cache entry. -/
theorem C1_regional_pull_leaves_base_document (fs : FS)
    (supported : LocaleTable) (cache : Cache) (file locale : String)
    (baseDoc : Doc)
    (hcomp : pyContains locale '-' = true)
    (hblow : pyLower (splitHead '-' locale) = splitHead '-' locale)
    (hbsup : (List.lookup (splitHead '-' locale) supported).isSome = true)
    (hfs : fs (splitHead '-' locale) file = some baseDoc)
    (hbc : List.lookup (file, splitHead '-' locale) cache = none ∨
           List.lookup (file, splitHead '-' locale) cache = some baseDoc) :
    (pull fs supported (pull fs supported cache file locale).cache
        file (splitHead '-' locale)).result = .ok baseDoc := by
  have hnb : pyContains (splitHead '-' locale) '-' = false :=
    pyContains_splitHead '-' locale
  have hne : (file, splitHead '-' locale) ≠ (file, locale) := by
    intro hh
    have hh2 : splitHead '-' locale = locale := congrArg Prod.snd hh
    rw [hh2, hcomp] at hnb
    exact absurd hnb (by simp)
  have hcache2 :
      List.lookup (file, splitHead '-' locale)
          (pull fs supported cache file locale).cache =
        List.lookup (file, splitHead '-' locale) cache := by
    rcases hc : List.lookup (file, locale) cache with _ | d0
    · rcases hb : pull_body fs supported file locale with ⟨r, reads⟩
      rcases r with e | d1
      · rw [pull_miss_error fs supported cache file locale e reads hc hb]
      · rw [pull_miss_ok fs supported cache file locale d1 reads hc hb]
        exact lookup_cons_ne _ _ _ _ hne
    · rw [pull_hit fs supported cache file locale d0 hc]
  have hbody := pull_body_simple fs supported file (splitHead '-' locale)
    hblow hbsup hnb baseDoc hfs
  rcases hbc with hnone | hsome
  · rw [pull_miss_ok fs supported _ file (splitHead '-' locale) baseDoc _
      (hcache2.trans hnone) hbody]
  · rw [pull_hit fs supported _ file (splitHead '-' locale) baseDoc
      (hcache2.trans hsome)]

/-- Witness for C1 on a mock filesystem holding `en` and `en-gb` files:
after pulling `"en-gb"` (which merges the region over a fresh copy of the
base), pulling `"en"` still returns the parsed base document. -/
theorem C1_regional_pull_leaves_base_document_witness :
    (pull
        (fun l f =>
          if l = "en" ∧ f = "d.json" then
            some (.obj [("k", .num 1), ("t", .str "base")])
          else if l = "en-gb" ∧ f = "d.json" then
            some (.obj [("t", .str "region")])
          else none)
        SUPPORTED_LOCALES
        (pull
          (fun l f =>
            if l = "en" ∧ f = "d.json" then
              some (.obj [("k", .num 1), ("t", .str "base")])
            else if l = "en-gb" ∧ f = "d.json" then
              some (.obj [("t", .str "region")])
            else none)
          SUPPORTED_LOCALES [] "d.json" "en-gb").cache
        "d.json" (splitHead '-' "en-gb")).result =
      .ok (.obj [("k", .num 1), ("t", .str "base")]) :=
  C1_regional_pull_leaves_base_document
    (fun l f =>
      if l = "en" ∧ f = "d.json" then
        some (.obj [("k", .num 1), ("t", .str "base")])
      else if l = "en-gb" ∧ f = "d.json" then
        some (.obj [("t", .str "region")])
      else none)
    SUPPORTED_LOCALES [] "d.json" "en-gb"
    (.obj [("k", .num 1), ("t", .str "base")])
    rfl rfl rfl rfl (Or.inl rfl)

end Mimesis
